import Mathlib

/-!
A verification development for the concurrency layer `ConcurrentArena`
(`memory/concurrent_arena.h` together with its out-of-line definitions:
`Repick`, the constructor and the `tls_cpuid` initializer).

Embedding conventions:
* Pointers are modelled as natural-number addresses in a flat address space.
* The underlying single-threaded `Arena` (`memory/arena.h`) is an external
  collaborator that is not part of the sources; it is modelled from the spec
  as a bump allocator with an embedded first (inline) block.  Its state keeps
  a `cursor` (next address served from the current block), a `limit` (end of
  the current block) and a `frontier` (first never-used address; fresh blocks
  are carved at or after the frontier).
* The spin locks cannot fail; `try_lock` outcomes depend on concurrent
  activity of other threads and are modelled as oracle inputs, as is the
  physical core index observed by `Repick`.  Each complete `AllocateImpl`
  call is a single atomic step (all its shared-state accesses happen under
  the corresponding locks), so a sequence of steps models an interleaving of
  concurrent calls.
* `AllocResult.mode` is a ghost observation recording which of the three
  routes served the request (direct arena path, inline-block shortcut inside
  the shard path, or a shard window).
-/

/-- `sizeof(void*)` on the 64-bit target: the word size used for alignment. -/
def wordSize : Nat := 8

/-- Round an address up to the next multiple of the word size. -/
def roundUp8 (n : Nat) : Nat := (n + (wordSize - 1)) / wordSize * wordSize

/-- Modelled from the spec: the state of the external single-threaded bump
`Arena` (`memory/arena.h` is not among the sources).  `cursor`/`limit`
delimit the unused part of the current block, `frontier` is the first
never-used address, `inInline` records whether the arena is still inside its
embedded first block. -/
structure Arena where
  cursor : Nat
  limit : Nat
  frontier : Nat
  inInline : Bool
  blockSize : Nat
  memAllocated : Nat
  irregular : Nat
deriving Repr, DecidableEq

/-- `Arena::AllocatedAndUnused()`: bytes allocated from the system but not
yet handed out (the unused tail of the current block). -/
def Arena.AllocatedAndUnused (a : Arena) : Nat := a.limit - a.cursor

/-- `Arena::IsInInlineBlock()`. -/
def Arena.IsInInlineBlock (a : Arena) : Bool := a.inInline

/-- `Arena::MemoryAllocatedBytes()`. -/
def Arena.MemoryAllocatedBytes (a : Arena) : Nat := a.memAllocated

/-- `Arena::IrregularBlockNum()`. -/
def Arena.IrregularBlockNum (a : Arena) : Nat := a.irregular

/-- `Arena::ApproximateMemoryUsage()`: memory charged to the arena minus the
part not yet handed out. -/
def Arena.ApproximateMemoryUsage (a : Arena) : Nat :=
  a.memAllocated - a.AllocatedAndUnused

/-- `Arena::BlockSize()`. -/
def Arena.BlockSize (a : Arena) : Nat := a.blockSize

/-- Modelled from the spec: the arena leaves its current block (stranding its
unused tail) and carves a fresh block at address `base` (`base` is at or
beyond the frontier).  A block larger than the normal block size counts as
irregular. -/
def Arena.newBlock (a : Arena) (base bytes : Nat) : Nat × Arena :=
  let sz := max bytes a.blockSize
  (base,
   { a with
     cursor := base + bytes
     limit := base + sz
     frontier := base + sz
     inInline := false
     memAllocated := a.memAllocated + sz
     irregular := if a.blockSize < bytes then a.irregular + 1 else a.irregular })

/-- Modelled from the spec: `Arena::Allocate(bytes)`, an unaligned bump
allocation: serve from the current block when it fits, otherwise from a
fresh block. -/
def Arena.Allocate (a : Arena) (bytes : Nat) : Nat × Arena :=
  if a.cursor + bytes ≤ a.limit then
    (a.cursor, { a with cursor := a.cursor + bytes })
  else
    a.newBlock a.frontier bytes

/-- Modelled from the spec: `Arena::AllocateAligned(bytes)`, a word-aligned
bump allocation (the huge-page hint only affects internal placement and is
not observable at this layer). -/
def Arena.AllocateAligned (a : Arena) (bytes : Nat) : Nat × Arena :=
  if roundUp8 a.cursor + bytes ≤ a.limit then
    (roundUp8 a.cursor, { a with cursor := roundUp8 a.cursor + bytes })
  else
    a.newBlock (roundUp8 a.frontier) bytes

/-- Modelled from the spec: a fresh arena whose embedded first (inline) block
holds `inlineSize` bytes. -/
def Arena.fresh (blockSize inlineSize : Nat) : Arena :=
  { cursor := 0
    limit := inlineSize
    frontier := inlineSize
    inInline := true
    blockSize := blockSize
    memAllocated := inlineSize
    irregular := 0 }

/-- `ConcurrentArena::Shard`: a per-slot allocation window, `free_begin_`
and `allocated_and_unused_` (the lock and the padding have no functional
content). -/
structure Shard where
  free_begin : Nat
  allocated_and_unused : Nat
deriving Repr, DecidableEq

/-- Oracle inputs standing for the environment of one call: the outcome of
the opportunistic `arena_mutex_.try_lock()`, the outcome of the shard's
`mutex.try_lock()`, and the physical core index the thread would observe if
it called `Repick` (`CoreLocalArray::AccessElementAndIndex` is external). -/
structure Oracle where
  arenaTryLock : Bool
  shardTryLock : Bool
  coreIndex : Nat
deriving Repr, DecidableEq

/-- Ghost tag: which route of `AllocateImpl` served the request. -/
inductive Mode where
  | direct
  | inlineShortcut
  | shard
deriving Repr, DecidableEq

/-- The state of a `ConcurrentArena`: the derived shard block size, the
per-core slot array of shards (`numShards = shards_.Size()`, a power of two
in every real configuration), the owned arena and the three cached
statistics counters. -/
structure ConcurrentArena where
  shard_block_size : Nat
  numShards : Nat
  shards : Nat → Shard
  arena : Arena
  arena_allocated_and_unused : Nat
  memory_allocated_bytes : Nat
  irregular_block_num : Nat

/-- Result of one `AllocateImpl` call: the returned pointer, the new shared
state, the calling thread's (possibly repicked) `tls_cpuid`, and the ghost
route tag. -/
structure AllocResult where
  rv : Nat
  state : ConcurrentArena
  tls : Nat
  mode : Mode

/-- `ConcurrentArena::Fixup()`: refresh the three cached counters from the
arena (only ever called with the arena mutex held). -/
def ConcurrentArena.Fixup (st : ConcurrentArena) : ConcurrentArena :=
  { st with
    arena_allocated_and_unused := st.arena.AllocatedAndUnused
    memory_allocated_bytes := st.arena.MemoryAllocatedBytes
    irregular_block_num := st.arena.IrregularBlockNum }

/-- `ConcurrentArena::ShardAllocatedAndUnused()`: sum of the shards'
remaining capacities. -/
def ConcurrentArena.ShardAllocatedAndUnused (st : ConcurrentArena) : Nat :=
  ((List.range st.numShards).map
    (fun i => (st.shards i).allocated_and_unused)).sum

/-- `ConcurrentArena::ApproximateMemoryUsage()`. -/
def ConcurrentArena.ApproximateMemoryUsage (st : ConcurrentArena) : Nat :=
  st.arena.ApproximateMemoryUsage - st.ShardAllocatedAndUnused

/-- `ConcurrentArena::MemoryAllocatedBytes()`: relaxed read of the cached
counter. -/
def ConcurrentArena.MemoryAllocatedBytes (st : ConcurrentArena) : Nat :=
  st.memory_allocated_bytes

/-- `ConcurrentArena::AllocatedAndUnused()`. -/
def ConcurrentArena.AllocatedAndUnused (st : ConcurrentArena) : Nat :=
  st.arena_allocated_and_unused + st.ShardAllocatedAndUnused

/-- `ConcurrentArena::IrregularBlockNum()`: relaxed read of the cached
counter. -/
def ConcurrentArena.IrregularBlockNum (st : ConcurrentArena) : Nat :=
  st.irregular_block_num

/-- `ConcurrentArena::BlockSize()`. -/
def ConcurrentArena.BlockSize (st : ConcurrentArena) : Nat := st.arena.BlockSize

/-- `ConcurrentArena::Repick()`: read the current execution context's slot
and its index and set `tls_cpuid` to `index | shards_.Size()`.  Returns the
chosen slot index together with the new `tls_cpuid`.
`AccessElementAndIndex` is external; modelled from the spec, its index is
the current core's slot index, always below `Size()`. -/
def ConcurrentArena.Repick (st : ConcurrentArena) (coreIndex : Nat) :
    Nat × Nat :=
  let idx := coreIndex % st.numShards
  (idx, idx ||| st.numShards)

/-- Lines 156-162 of `AllocateImpl`: select the shard at slot
`cpu & (shards_.Size() - 1)`; when its `try_lock` fails, `Repick` and use
the repicked shard (taking a blocking lock there).  Returns the index of the
shard that was locked and the thread's `tls_cpuid` after the call. -/
def ConcurrentArena.pickShard (st : ConcurrentArena) (tls : Nat)
    (o : Oracle) : Nat × Nat :=
  if o.shardTryLock then (tls &&& (st.numShards - 1), tls)
  else st.Repick o.coreIndex

/-- The routing condition of `AllocateImpl` (lines 137-141): go directly to
the arena when the request is large, when the caller forces the arena, or
when the thread has never repicked, slot 0's shard is empty and the
opportunistic try-lock on the arena mutex succeeds. -/
def ConcurrentArena.directCond (st : ConcurrentArena) (tls bytes : Nat)
    (force : Bool) (o : Oracle) : Bool :=
  decide (st.shard_block_size / 4 < bytes) || force ||
    (decide (tls = 0) &&
      decide ((st.shards 0).allocated_and_unused = 0) && o.arenaTryLock)

/-- The `func` closure handed to `AllocateImpl`: `arena_.Allocate(bytes)`
for `Allocate`, `arena_.AllocateAligned(rounded_up, ...)` for
`AllocateAligned`. -/
def runFunc (aligned : Bool) (bytes : Nat) (a : Arena) : Nat × Arena :=
  if aligned then a.AllocateAligned bytes else a.Allocate bytes

/-- Lines 196-211 of `AllocateImpl`: store `avail - bytes` into the shard's
capacity and bump-allocate from the window starting at `fb` with `avail`
bytes: word-multiple requests are served at the front (advancing
`free_begin_`), others at the tail (`free_begin_ + avail - bytes`) without
moving `free_begin_`. -/
def ConcurrentArena.finishBump (st : ConcurrentArena)
    (idx fb avail bytes tls : Nat) : AllocResult :=
  if bytes % wordSize = 0 then
    { rv := fb
      state := { st with shards :=
        (fun j => if j = idx then Shard.mk (fb + bytes) (avail - bytes)
          else st.shards j) }
      tls := tls
      mode := Mode.shard }
  else
    { rv := fb + avail - bytes
      state := { st with shards :=
        (fun j => if j = idx then Shard.mk fb (avail - bytes)
          else st.shards j) }
      tls := tls
      mode := Mode.shard }

/-- The refill window size (lines 190-192): `exact` when it is within a
factor of two of `shard_block_size_`, otherwise `shard_block_size_`. -/
def refillSize (sbs exact : Nat) : Nat :=
  if sbs / 2 ≤ exact ∧ exact < sbs * 2 then exact else sbs

/-- `ConcurrentArena::AllocateImpl(bytes, force_arena, func)`. -/
def ConcurrentArena.AllocateImpl (st : ConcurrentArena) (tls bytes : Nat)
    (force aligned : Bool) (o : Oracle) : AllocResult :=
  if st.directCond tls bytes force o then
    { rv := (runFunc aligned bytes st.arena).1
      state := ConcurrentArena.Fixup
        { st with arena := (runFunc aligned bytes st.arena).2 }
      tls := tls
      mode := Mode.direct }
  else
    let idx := (st.pickShard tls o).1
    let tls2 := (st.pickShard tls o).2
    let avail := (st.shards idx).allocated_and_unused
    if avail < bytes then
      if bytes ≤ st.arena_allocated_and_unused ∧
          st.arena.IsInInlineBlock = true then
        { rv := (runFunc aligned bytes st.arena).1
          state := ConcurrentArena.Fixup
            { st with arena := (runFunc aligned bytes st.arena).2 }
          tls := tls2
          mode := Mode.inlineShortcut }
      else
        let avail2 :=
          refillSize st.shard_block_size st.arena_allocated_and_unused
        ConcurrentArena.finishBump
          (ConcurrentArena.Fixup
            { st with arena := (st.arena.AllocateAligned avail2).2 })
          idx (st.arena.AllocateAligned avail2).1 avail2 bytes tls2
    else
      ConcurrentArena.finishBump st idx (st.shards idx).free_begin avail
        bytes tls2

/-- `ConcurrentArena::Allocate(bytes)`. -/
def ConcurrentArena.Allocate (st : ConcurrentArena) (tls bytes : Nat)
    (o : Oracle) : AllocResult :=
  st.AllocateImpl tls bytes false false o

/-- The rounding performed by `ConcurrentArena::AllocateAligned` (line 59):
`((bytes - 1) | (sizeof(void*) - 1)) + 1`.  (`bytes` is a `size_t`; for the
`bytes = 0` case, excluded by the claims and by the source's own assertion,
the C++ expression wraps around while this one does not.) -/
def rounded_up (bytes : Nat) : Nat := ((bytes - 1) ||| (wordSize - 1)) + 1

/-- `ConcurrentArena::AllocateAligned(bytes, huge_page_size, logger)`:
round up to a word multiple and delegate, forcing the arena path when a
huge page size is supplied. -/
def ConcurrentArena.AllocateAligned (st : ConcurrentArena)
    (tls bytes huge_page_size : Nat) (o : Oracle) : AllocResult :=
  st.AllocateImpl tls (rounded_up bytes) (decide (huge_page_size ≠ 0)) true o

/-- `kMaxShardBlockSize` from the out-of-line definitions. -/
def kMaxShardBlockSize : Nat := 128 * 1024

/-- The `ConcurrentArena` constructor: derive `shard_block_size_`, start
with lazily populated (null, empty) shards and a fresh arena, then
`Fixup()`.  (`inlineSize` parameterizes the modelled arena's embedded first
block.) -/
def ConcurrentArena.mkInit (blockSize inlineSize numShards : Nat) :
    ConcurrentArena :=
  ConcurrentArena.Fixup
    { shard_block_size := min kMaxShardBlockSize (blockSize / 8)
      numShards := numShards
      shards := fun _ => { free_begin := 0, allocated_and_unused := 0 }
      arena := Arena.fresh blockSize inlineSize
      arena_allocated_and_unused := 0
      memory_allocated_bytes := 0
      irregular_block_num := 0 }

/-- One request of a trace: the calling thread's current `tls_cpuid`, the
size reaching `AllocateImpl` (already rounded for aligned requests), the
`force_arena` flag, which arena entry point the closure uses, and the
oracle inputs. -/
structure Step where
  tls : Nat
  bytes : Nat
  force : Bool
  aligned : Bool
  o : Oracle
deriving Repr, DecidableEq

/-- Observable outcome of one completed call: returned pointer, requested
size and the route that served it. -/
structure Event where
  rv : Nat
  bytes : Nat
  mode : Mode
deriving Repr, DecidableEq

/-- Run a sequence of completed calls, collecting their outcomes.  Because
every call performs its shared-state accesses under the corresponding
locks, a sequence of whole calls models an arbitrary interleaving of
concurrent calls (lock outcomes and core migrations enter through each
step's oracle). -/
def ConcurrentArena.run (st : ConcurrentArena) :
    List Step → ConcurrentArena × List Event
  | [] => (st, [])
  | s :: rest =>
    let r := st.AllocateImpl s.tls s.bytes s.force s.aligned s.o
    let t := r.state.run rest
    (t.1, { rv := r.rv, bytes := s.bytes, mode := r.mode } :: t.2)

/-- Two byte ranges `[rv, rv+bytes)` are disjoint (empty ranges are disjoint
from everything). -/
def Event.disj (e f : Event) : Prop :=
  e.rv + e.bytes ≤ f.rv ∨ f.rv + f.bytes ≤ e.rv ∨ e.bytes = 0 ∨ f.bytes = 0

/-- Address `x` lies in the range returned by event `e`. -/
def Event.covers (e : Event) (x : Nat) : Prop :=
  e.rv ≤ x ∧ x < e.rv + e.bytes

/-- Address `x` is unserved arena memory: in the unused tail of the current
block or at/beyond the frontier. -/
def Arena.freeAddr (a : Arena) (x : Nat) : Prop :=
  (a.cursor ≤ x ∧ x < a.limit) ∨ a.frontier ≤ x

/-- Basic well-formedness of the modelled arena. -/
def Arena.wf (a : Arena) : Prop :=
  a.cursor ≤ a.limit ∧ a.limit ≤ a.frontier

/-- Address `x` lies in shard `s`'s current window. -/
def Shard.win (s : Shard) (x : Nat) : Prop :=
  s.free_begin ≤ x ∧ x < s.free_begin + s.allocated_and_unused

/-- Address `x` is free in the whole system: unserved arena memory or part
of some shard's window. -/
def ConcurrentArena.freeAddr (st : ConcurrentArena) (x : Nat) : Prop :=
  st.arena.freeAddr x ∨ ∃ i, (st.shards i).win x

/-- The aliasing-freedom invariant: the arena is well formed, shard windows
are carved out of served arena memory (disjoint from the arena's free part),
pairwise disjoint, and every completed allocation is disjoint from
everything still free. -/
def AliasInv (st : ConcurrentArena) (evs : List Event) : Prop :=
  st.arena.wf ∧
  (∀ i x, (st.shards i).win x → ¬ st.arena.freeAddr x) ∧
  (∀ i j x, i ≠ j → (st.shards i).win x → ¬ (st.shards j).win x) ∧
  (∀ e ∈ evs, ∀ x, e.covers x → ¬ st.freeAddr x) ∧
  List.Pairwise Event.disj evs

/-- The cached statistics counters agree with the arena's current values
(the source's own `assert(exact == arena_.AllocatedAndUnused())`). -/
def CacheOK (st : ConcurrentArena) : Prop :=
  st.arena_allocated_and_unused = st.arena.AllocatedAndUnused ∧
  st.memory_allocated_bytes = st.arena.MemoryAllocatedBytes ∧
  st.irregular_block_num = st.arena.IrregularBlockNum

/-- Every shard's free-pointer is word-aligned. -/
def ShardsAligned (st : ConcurrentArena) : Prop :=
  ∀ i, wordSize ∣ (st.shards i).free_begin

/-! ## Bit-arithmetic helper lemmas -/

/-- Or-ing with a low-bit mask does not change the high bits. -/
theorem or_mask_div (a n : Nat) : (a ||| (2 ^ n - 1)) / 2 ^ n = a / 2 ^ n := by
  rw [← Nat.shiftRight_eq_div_pow, ← Nat.shiftRight_eq_div_pow]
  apply Nat.eq_of_testBit_eq
  intro i
  simp only [Nat.testBit_shiftRight, Nat.testBit_or, Nat.testBit_two_pow_sub_one]
  have h : ¬ (n + i < n) := by omega
  simp [h]

/-- Or-ing with a low-bit mask sets all the low bits. -/
theorem or_mask_mod (a n : Nat) : (a ||| (2 ^ n - 1)) % 2 ^ n = 2 ^ n - 1 := by
  apply Nat.eq_of_testBit_eq
  intro i
  simp only [Nat.testBit_mod_two_pow, Nat.testBit_or, Nat.testBit_two_pow_sub_one]
  by_cases h : i < n <;> simp [h]

/-- Closed form of or-ing with a low-bit mask. -/
theorem or_mask_eq (a n : Nat) :
    a ||| (2 ^ n - 1) = 2 ^ n * (a / 2 ^ n) + (2 ^ n - 1) := by
  conv_lhs => rw [← Nat.div_add_mod (a ||| (2 ^ n - 1)) (2 ^ n)]
  rw [or_mask_div, or_mask_mod]

/-- Or-ing a single higher power-of-two bit into a small number is addition. -/
theorem or_two_pow_div {i k : Nat} (h : i < 2 ^ k) : (i ||| 2 ^ k) / 2 ^ k = 1 := by
  rw [← Nat.shiftRight_eq_div_pow]
  apply Nat.eq_of_testBit_eq
  intro j
  have h1 : i.testBit (k + j) = false :=
    Nat.testBit_lt_two_pow
      (lt_of_lt_of_le h (Nat.pow_le_pow_right (by norm_num) (Nat.le_add_right k j)))
  rw [show (1 : Nat) = 2 ^ 0 from rfl]
  simp only [Nat.testBit_shiftRight, Nat.testBit_or, h1, Nat.testBit_two_pow]
  by_cases hj : j = 0
  · simp [hj]
  · have h2 : ¬ (k = k + j) := by omega
    have h3 : ¬ ((0 : Nat) = j) := fun hh => hj hh.symm
    simp [h2, h3]

/-- The low bits are unchanged when or-ing in a single higher bit. -/
theorem or_two_pow_mod {i k : Nat} (h : i < 2 ^ k) : (i ||| 2 ^ k) % 2 ^ k = i := by
  apply Nat.eq_of_testBit_eq
  intro j
  simp only [Nat.testBit_mod_two_pow, Nat.testBit_or, Nat.testBit_two_pow]
  by_cases hj : j < k
  · have : ¬ (k = j) := by omega
    simp [hj, this]
  · have h1 : i.testBit j = false :=
      Nat.testBit_lt_two_pow
        (lt_of_lt_of_le h (Nat.pow_le_pow_right (by norm_num) (Nat.le_of_not_lt hj)))
    simp [hj, h1]

/-- For `i < 2^k`, `i ||| 2^k = 2^k + i`. -/
theorem or_two_pow_of_lt {i k : Nat} (h : i < 2 ^ k) : i ||| 2 ^ k = 2 ^ k + i := by
  conv_lhs => rw [← Nat.div_add_mod (i ||| 2 ^ k) (2 ^ k)]
  rw [or_two_pow_div h, or_two_pow_mod h, Nat.mul_one]

/-- Closed form of the rounding in `AllocateAligned`. -/
theorem rounded_up_eq (bytes : Nat) :
    rounded_up bytes = 8 * ((bytes - 1) / 8) + 8 := by
  have h := or_mask_eq (bytes - 1) 3
  norm_num at h
  simp only [rounded_up, wordSize]
  norm_num [h]

/-! ## C7: the rounding of `AllocateAligned` -/

/-- C7: for every `bytes >= 1`, `rounded_up = ((bytes-1) | (sizeof(void*)-1)) + 1`
is the least word-size multiple that is `>= bytes` (so it is `>= bytes`,
`< bytes + wordSize` and a word multiple), and `AllocateAligned` delegates
the allocation with that rounded size. -/
theorem C7_rounded_up_least_word_multiple (bytes : Nat) (h : 1 ≤ bytes) :
    bytes ≤ rounded_up bytes ∧
    rounded_up bytes < bytes + wordSize ∧
    rounded_up bytes % wordSize = 0 ∧
    (∀ m, m % wordSize = 0 → bytes ≤ m → rounded_up bytes ≤ m) ∧
    (∀ (st : ConcurrentArena) (tls huge : Nat) (o : Oracle),
      st.AllocateAligned tls bytes huge o =
        st.AllocateImpl tls (rounded_up bytes) (decide (huge ≠ 0)) true o) := by
  have he := rounded_up_eq bytes
  have hd := Nat.div_add_mod (bytes - 1) 8
  have hm : (bytes - 1) % 8 < 8 := Nat.mod_lt _ (by norm_num)
  refine ⟨by omega, ?_, ?_, ?_, fun st tls huge o => rfl⟩
  · simp only [wordSize]; omega
  · simp only [wordSize]; omega
  · intro m hm0 hbm
    simp only [wordSize] at hm0
    omega

/-- Witness for C7 at `bytes = 13`: the rounded size is 16. -/
theorem C7_witness :
    1 ≤ 13 ∧ (13 ≤ rounded_up 13 ∧ rounded_up 13 < 13 + wordSize ∧
      rounded_up 13 % wordSize = 0) :=
  ⟨by decide,
   (C7_rounded_up_least_word_multiple 13 (by decide)).1,
   (C7_rounded_up_least_word_multiple 13 (by decide)).2.1,
   (C7_rounded_up_least_word_multiple 13 (by decide)).2.2.1⟩

/-! ## C6: `Repick` -/

/-- C6 (amended): `Repick` sets the thread-local id to
`index | shards_.Size()`; with `Size = 2^k` and the slot index below it,
every repicked id lies in the single fixed range `[2^k, 2^(k+1))`
(equivalently `[Size, 2*Size)`); the sequence of repicked ids does not climb
through successive power-of-two ranges and need not be monotone. -/
theorem C6_repick_id_range (st : ConcurrentArena) (c k : Nat)
    (h : st.numShards = 2 ^ k) :
    (st.Repick c).2 = (c % st.numShards) ||| st.numShards ∧
    (st.Repick c).2 = st.numShards + c % st.numShards ∧
    st.numShards ≤ (st.Repick c).2 ∧
    (st.Repick c).2 < 2 * st.numShards := by
  have hp : (0 : Nat) < 2 ^ k := Nat.pos_pow_of_pos k (by norm_num)
  have hlt : c % st.numShards < 2 ^ k := by
    rw [h]; exact Nat.mod_lt _ hp
  have ho : (c % st.numShards) ||| st.numShards =
      st.numShards + c % st.numShards := by
    rw [h] at hlt ⊢; exact or_two_pow_of_lt hlt
  refine ⟨rfl, ho, ?_, ?_⟩ <;> simp only [ConcurrentArena.Repick, ho] <;> omega

/-- Witness for C6's amended theorem: with 4 shards, repicking on core 3
yields id `3 ||| 4 = 7`, inside `[4, 8)`. -/
theorem C6_witness :
    (ConcurrentArena.mkInit 1024 64 4).numShards = 2 ^ 2 ∧
    4 ≤ ((ConcurrentArena.mkInit 1024 64 4).Repick 3).2 ∧
    ((ConcurrentArena.mkInit 1024 64 4).Repick 3).2 < 2 * 4 :=
  ⟨by decide,
   (C6_repick_id_range (ConcurrentArena.mkInit 1024 64 4) 3 2 (by decide)).2.2.1,
   (C6_repick_id_range (ConcurrentArena.mkInit 1024 64 4) 3 2 (by decide)).2.2.2⟩

/-- Counterexample to C6 as stated: with 4 shards, a thread repicked on
core 3 and then on core 1 gets ids 7 and then 5 — the sequence of repicked
ids is not monotonically growing, and the second id stays in `[4, 8)`
instead of climbing into the next range `[8, 16)`. -/
theorem C6_counterexample :
    ((ConcurrentArena.mkInit 1024 64 4).Repick 3).2 = 7 ∧
    ((ConcurrentArena.mkInit 1024 64 4).Repick 1).2 = 5 ∧
    ¬ ((ConcurrentArena.mkInit 1024 64 4).Repick 3).2 ≤
        ((ConcurrentArena.mkInit 1024 64 4).Repick 1).2 ∧
    ¬ 2 ^ 3 ≤ ((ConcurrentArena.mkInit 1024 64 4).Repick 1).2 := by
  decide

/-! ## C10: repicked ids are never 0 again; shard selection stays in range -/

/-- C10: after a `Repick` the thread's id is `index | Size`, in
`[Size, 2*Size)` and in particular nonzero; `AllocateImpl` never resets a
nonzero id to zero, so the `tls_cpuid == 0` part of the direct-path probe
can never be satisfied again by that thread — for such a thread the direct
path is taken exactly on large or forced requests; and the selected shard
index is always strictly below the slot count. -/
theorem C10_repick_nonzero_and_mask_in_range :
    (∀ (st : ConcurrentArena) (c k : Nat), st.numShards = 2 ^ k →
      st.numShards ≤ (st.Repick c).2 ∧
      (st.Repick c).2 < 2 * st.numShards ∧ (st.Repick c).2 ≠ 0) ∧
    (∀ (st : ConcurrentArena) (tls bytes : Nat) (force aligned : Bool)
        (o : Oracle) (k : Nat), st.numShards = 2 ^ k → tls ≠ 0 →
      (st.AllocateImpl tls bytes force aligned o).tls ≠ 0) ∧
    (∀ (st : ConcurrentArena) (tls bytes : Nat) (force : Bool) (o : Oracle),
      tls ≠ 0 →
      (st.directCond tls bytes force o = true ↔
        (st.shard_block_size / 4 < bytes ∨ force = true))) ∧
    (∀ (st : ConcurrentArena) (tls : Nat) (o : Oracle) (k : Nat),
      st.numShards = 2 ^ k → (st.pickShard tls o).1 < st.numShards) := by
  have hrep : ∀ (st : ConcurrentArena) (c k : Nat), st.numShards = 2 ^ k →
      st.numShards ≤ (st.Repick c).2 ∧
      (st.Repick c).2 < 2 * st.numShards ∧ (st.Repick c).2 ≠ 0 := by
    intro st c k h
    have hp : (0 : Nat) < 2 ^ k := Nat.pos_pow_of_pos k (by norm_num)
    have hlt : c % st.numShards < 2 ^ k := by rw [h]; exact Nat.mod_lt _ hp
    have ho : (st.Repick c).2 = st.numShards + c % st.numShards := by
      simp only [ConcurrentArena.Repick]
      rw [h] at hlt ⊢; exact or_two_pow_of_lt hlt
    refine ⟨?_, ?_, ?_⟩ <;> rw [ho] <;> omega
  have hpick : ∀ (st : ConcurrentArena) (tls : Nat) (o : Oracle) (k : Nat),
      st.numShards = 2 ^ k → (st.pickShard tls o).1 < st.numShards := by
    intro st tls o k h
    have hp : (0 : Nat) < 2 ^ k := Nat.pos_pow_of_pos k (by norm_num)
    simp only [ConcurrentArena.pickShard]
    split
    · rw [h]
      rw [show (2 : Nat) ^ k - 1 = 2 ^ k - 1 from rfl]
      rw [Nat.and_pow_two_sub_one_eq_mod]
      exact Nat.mod_lt _ hp
    · simp only [ConcurrentArena.Repick]
      rw [h]
      exact Nat.mod_lt _ hp
  have htls : ∀ (st : ConcurrentArena) (tls bytes : Nat)
      (force aligned : Bool) (o : Oracle) (k : Nat), st.numShards = 2 ^ k →
      tls ≠ 0 → (st.AllocateImpl tls bytes force aligned o).tls ≠ 0 := by
    intro st tls bytes force aligned o k h htl
    have h2 : (st.pickShard tls o).2 ≠ 0 := by
      simp only [ConcurrentArena.pickShard]
      split
      · exact htl
      · exact (hrep st o.coreIndex k h).2.2
    simp only [ConcurrentArena.AllocateImpl]
    split
    · exact htl
    · split
      · split
        · exact h2
        · simp only [ConcurrentArena.finishBump]
          split <;> exact h2
      · simp only [ConcurrentArena.finishBump]
        split <;> exact h2
  refine ⟨hrep, htls, ?_, hpick⟩
  intro st tls bytes force o htl
  simp only [ConcurrentArena.directCond, Bool.or_eq_true, Bool.and_eq_true,
    decide_eq_true_eq]
  constructor
  · rintro (h | h)
    · exact h
    · exact absurd h.1.1 htl
  · rintro (h | h)
    · exact Or.inl (Or.inl h)
    · exact Or.inl (Or.inr h)

/-- Witness for C10 with 4 shards: repicking on core 3 yields a nonzero id,
and shard selection from id 7 stays below the slot count. -/
theorem C10_witness :
    (ConcurrentArena.mkInit 1024 64 4).numShards = 2 ^ 2 ∧
    ((ConcurrentArena.mkInit 1024 64 4).Repick 3).2 ≠ 0 ∧
    ((ConcurrentArena.mkInit 1024 64 4).pickShard 7
      (Oracle.mk false true 0)).1 < (ConcurrentArena.mkInit 1024 64 4).numShards :=
  ⟨by decide,
   (C10_repick_nonzero_and_mask_in_range.1 (ConcurrentArena.mkInit 1024 64 4)
      3 2 (by decide)).2.2,
   C10_repick_nonzero_and_mask_in_range.2.2.2 (ConcurrentArena.mkInit 1024 64 4)
      7 (Oracle.mk false true 0) 2 (by decide)⟩

/-! ## C2: the direct-path routing condition -/

/-- C2: a request takes the direct arena path (lock the arena mutex,
allocate there via the supplied closure, refresh the cached statistics,
return) exactly when `bytes > shard_block_size/4`, or `force_arena` is set,
or the thread's `tls_cpuid` is still 0, slot 0's shard reports zero
remaining capacity and the opportunistic try-lock on the arena mutex
succeeds; otherwise the shard path is taken. -/
theorem C2_direct_path_iff (st : ConcurrentArena) (tls bytes : Nat)
    (force aligned : Bool) (o : Oracle) :
    ((st.AllocateImpl tls bytes force aligned o).mode = Mode.direct ↔
      (st.shard_block_size / 4 < bytes ∨ force = true ∨
        (tls = 0 ∧ (st.shards 0).allocated_and_unused = 0 ∧
          o.arenaTryLock = true))) ∧
    (st.directCond tls bytes force o = true →
      st.AllocateImpl tls bytes force aligned o =
        { rv := (runFunc aligned bytes st.arena).1
          state := ConcurrentArena.Fixup
            { st with arena := (runFunc aligned bytes st.arena).2 }
          tls := tls
          mode := Mode.direct }) := by
  have hc : st.directCond tls bytes force o = true ↔
      (st.shard_block_size / 4 < bytes ∨ force = true ∨
        (tls = 0 ∧ (st.shards 0).allocated_and_unused = 0 ∧
          o.arenaTryLock = true)) := by
    simp only [ConcurrentArena.directCond, Bool.or_eq_true, Bool.and_eq_true,
      decide_eq_true_eq, and_assoc]
    tauto
  constructor
  · rw [← hc]
    simp only [ConcurrentArena.AllocateImpl]
    split
    · simp [*]
    · rename_i hn
      simp only [Bool.not_eq_true] at hn
      simp only [hn]
      constructor
      · intro hmode
        exfalso
        revert hmode
        split
        · split
          · simp
          · simp only [ConcurrentArena.finishBump]
            split <;> simp
        · simp only [ConcurrentArena.finishBump]
          split <;> simp
      · intro hfalse
        simp at hfalse
  · intro hd
    simp only [ConcurrentArena.AllocateImpl, hd, if_true]

/-- Witness for C2: with `shard_block_size = 128`, a 33-byte request
(`33 > 128/4`) takes the direct path. -/
theorem C2_witness :
    (ConcurrentArena.mkInit 1024 64 4).shard_block_size / 4 < 33 ∧
    ((ConcurrentArena.mkInit 1024 64 4).AllocateImpl 5 33 false false
      (Oracle.mk false true 0)).mode = Mode.direct :=
  ⟨by decide,
   (C2_direct_path_iff (ConcurrentArena.mkInit 1024 64 4) 5 33 false false
      (Oracle.mk false true 0)).1.mpr (Or.inl (by decide))⟩

/-! ## C3: bump allocation from a shard window with enough capacity -/

/-- C3: on the shard path, when the locked shard's remaining capacity
`avail` is at least `bytes`: a word-multiple request is served at the
current free-pointer, which advances by `bytes`; any other request is
served at `free-pointer + avail - bytes` with the free-pointer unchanged;
in both cases the capacity becomes `avail - bytes`, and neither the other
shards nor the arena are touched. -/
theorem C3_shard_bump (st : ConcurrentArena) (tls bytes : Nat)
    (force aligned : Bool) (o : Oracle)
    (hd : st.directCond tls bytes force o = false)
    (hav : bytes ≤ (st.shards (st.pickShard tls o).1).allocated_and_unused) :
    (st.AllocateImpl tls bytes force aligned o).mode = Mode.shard ∧
    ((st.AllocateImpl tls bytes force aligned o).state.shards
        (st.pickShard tls o).1).allocated_and_unused =
      (st.shards (st.pickShard tls o).1).allocated_and_unused - bytes ∧
    (bytes % wordSize = 0 →
      (st.AllocateImpl tls bytes force aligned o).rv =
        (st.shards (st.pickShard tls o).1).free_begin ∧
      ((st.AllocateImpl tls bytes force aligned o).state.shards
          (st.pickShard tls o).1).free_begin =
        (st.shards (st.pickShard tls o).1).free_begin + bytes) ∧
    (bytes % wordSize ≠ 0 →
      (st.AllocateImpl tls bytes force aligned o).rv =
        (st.shards (st.pickShard tls o).1).free_begin +
          (st.shards (st.pickShard tls o).1).allocated_and_unused - bytes ∧
      ((st.AllocateImpl tls bytes force aligned o).state.shards
          (st.pickShard tls o).1).free_begin =
        (st.shards (st.pickShard tls o).1).free_begin) ∧
    (∀ j, j ≠ (st.pickShard tls o).1 →
      (st.AllocateImpl tls bytes force aligned o).state.shards j =
        st.shards j) ∧
    (st.AllocateImpl tls bytes force aligned o).state.arena = st.arena := by
  have hnav : ¬ ((st.shards (st.pickShard tls o).1).allocated_and_unused
      < bytes) := by omega
  simp only [ConcurrentArena.AllocateImpl, hd, Bool.false_eq_true, if_false,
    hnav, ConcurrentArena.finishBump]
  by_cases hb : bytes % wordSize = 0
  · simp [hb]
    exact fun j hj hj2 => absurd hj2 hj
  · simp [hb]
    exact fun j hj hj2 => absurd hj2 hj

/-- Witness for C3 at the spec's example: a 13-byte request against a shard
with 100 bytes capacity and free-pointer 1000 returns `1000 + 87 = 1087`,
leaves the free-pointer at 1000 and the capacity at 87. -/
theorem C3_witness :
    ((ConcurrentArena.mk 128 1 (fun _ => Shard.mk 1000 100)
        (Arena.fresh 1024 0) 0 0 0).directCond 5 13 false
        (Oracle.mk true true 0) = false) ∧
    13 ≤ 100 ∧
    ((ConcurrentArena.mk 128 1 (fun _ => Shard.mk 1000 100)
        (Arena.fresh 1024 0) 0 0 0).AllocateImpl 5 13 false false
        (Oracle.mk true true 0)).rv = 1087 ∧
    (((ConcurrentArena.mk 128 1 (fun _ => Shard.mk 1000 100)
        (Arena.fresh 1024 0) 0 0 0).AllocateImpl 5 13 false false
        (Oracle.mk true true 0)).state.shards 0).allocated_and_unused = 87 ∧
    (((ConcurrentArena.mk 128 1 (fun _ => Shard.mk 1000 100)
        (Arena.fresh 1024 0) 0 0 0).AllocateImpl 5 13 false false
        (Oracle.mk true true 0)).state.shards 0).free_begin = 1000 := by
  have h := C3_shard_bump
    (ConcurrentArena.mk 128 1 (fun _ => Shard.mk 1000 100)
      (Arena.fresh 1024 0) 0 0 0) 5 13 false false (Oracle.mk true true 0)
    (by decide) (by decide)
  refine ⟨by decide, by decide, ?_, ?_, ?_⟩
  · exact ((h.2.2.2.1 (by decide)).1).trans (by decide)
  · exact (h.2.1).trans (by decide)
  · exact ((h.2.2.2.1 (by decide)).2).trans (by decide)

/-! ## C4: shard refill -/

/-- `roundUp8` produces word multiples. -/
theorem wordSize_dvd_roundUp8 (n : Nat) : wordSize ∣ roundUp8 n :=
  ⟨(n + (wordSize - 1)) / wordSize, Nat.mul_comm _ _⟩

/-- The modelled arena's aligned allocation returns word-aligned pointers. -/
theorem allocateAligned_fst_aligned (a : Arena) (n : Nat) :
    wordSize ∣ (a.AllocateAligned n).1 := by
  simp only [Arena.AllocateAligned, Arena.newBlock]
  split
  · exact wordSize_dvd_roundUp8 _
  · exact wordSize_dvd_roundUp8 _

/-- C4: when a refill happens (shard capacity below `bytes`, inline-block
shortcut not taken), the new window's size is the cached
allocated-and-unused amount `exact` if `exact` is within a factor of two of
`shard_block_size` and `shard_block_size` otherwise; the window is carved
word-aligned from the arena, becomes the shard's window (observed after the
call with the current request already served from it), and the cached
statistics are refreshed from the arena. -/
theorem C4_refill_window (st : ConcurrentArena) (tls bytes : Nat)
    (force aligned : Bool) (o : Oracle)
    (hd : st.directCond tls bytes force o = false)
    (hav : (st.shards (st.pickShard tls o).1).allocated_and_unused < bytes)
    (hsc : ¬ (bytes ≤ st.arena_allocated_and_unused ∧
      st.arena.IsInInlineBlock = true)) :
    (st.AllocateImpl tls bytes force aligned o).mode = Mode.shard ∧
    (st.shard_block_size / 2 ≤ st.arena_allocated_and_unused ∧
        st.arena_allocated_and_unused < st.shard_block_size * 2 →
      refillSize st.shard_block_size st.arena_allocated_and_unused =
        st.arena_allocated_and_unused) ∧
    (¬ (st.shard_block_size / 2 ≤ st.arena_allocated_and_unused ∧
        st.arena_allocated_and_unused < st.shard_block_size * 2) →
      refillSize st.shard_block_size st.arena_allocated_and_unused =
        st.shard_block_size) ∧
    wordSize ∣ (st.arena.AllocateAligned
      (refillSize st.shard_block_size st.arena_allocated_and_unused)).1 ∧
    (st.AllocateImpl tls bytes force aligned o).state.arena =
      (st.arena.AllocateAligned
        (refillSize st.shard_block_size st.arena_allocated_and_unused)).2 ∧
    (st.AllocateImpl tls bytes force aligned o).state.arena_allocated_and_unused =
      ((st.AllocateImpl tls bytes force aligned o).state.arena).AllocatedAndUnused ∧
    (st.AllocateImpl tls bytes force aligned o).state.memory_allocated_bytes =
      ((st.AllocateImpl tls bytes force aligned o).state.arena).MemoryAllocatedBytes ∧
    (st.AllocateImpl tls bytes force aligned o).state.irregular_block_num =
      ((st.AllocateImpl tls bytes force aligned o).state.arena).IrregularBlockNum ∧
    ((st.AllocateImpl tls bytes force aligned o).state.shards
        (st.pickShard tls o).1).allocated_and_unused =
      refillSize st.shard_block_size st.arena_allocated_and_unused - bytes ∧
    (bytes % wordSize = 0 →
      (st.AllocateImpl tls bytes force aligned o).rv =
        (st.arena.AllocateAligned
          (refillSize st.shard_block_size st.arena_allocated_and_unused)).1 ∧
      ((st.AllocateImpl tls bytes force aligned o).state.shards
          (st.pickShard tls o).1).free_begin =
        (st.arena.AllocateAligned
          (refillSize st.shard_block_size st.arena_allocated_and_unused)).1 + bytes) ∧
    (bytes % wordSize ≠ 0 →
      (st.AllocateImpl tls bytes force aligned o).rv =
        (st.arena.AllocateAligned
          (refillSize st.shard_block_size st.arena_allocated_and_unused)).1 +
          refillSize st.shard_block_size st.arena_allocated_and_unused - bytes ∧
      ((st.AllocateImpl tls bytes force aligned o).state.shards
          (st.pickShard tls o).1).free_begin =
        (st.arena.AllocateAligned
          (refillSize st.shard_block_size st.arena_allocated_and_unused)).1) := by
  have hrs1 : st.shard_block_size / 2 ≤ st.arena_allocated_and_unused ∧
      st.arena_allocated_and_unused < st.shard_block_size * 2 →
      refillSize st.shard_block_size st.arena_allocated_and_unused =
        st.arena_allocated_and_unused := by
    intro h; simp [refillSize, h]
  have hrs2 : ¬ (st.shard_block_size / 2 ≤ st.arena_allocated_and_unused ∧
      st.arena_allocated_and_unused < st.shard_block_size * 2) →
      refillSize st.shard_block_size st.arena_allocated_and_unused =
        st.shard_block_size := by
    intro h; simp [refillSize, h]
  simp only [ConcurrentArena.AllocateImpl, hd, Bool.false_eq_true, if_false]
  rw [if_pos hav, if_neg hsc]
  refine ⟨?_, hrs1, hrs2, allocateAligned_fst_aligned _ _, ?_⟩
  · simp only [ConcurrentArena.finishBump]
    split <;> rfl
  · simp only [ConcurrentArena.finishBump, ConcurrentArena.Fixup]
    by_cases hb : bytes % wordSize = 0 <;> simp [hb]

/-- Witness for C4: a 13-byte request against an empty shard with
`shard_block_size = 128` and cached `exact = 0` refills with a 128-byte
word-aligned window at address 0 and serves the request from its tail. -/
theorem C4_witness :
    ((ConcurrentArena.mk 128 4 (fun _ => Shard.mk 0 0)
        (Arena.fresh 1024 0) 0 0 0).directCond 5 13 false
        (Oracle.mk true true 0) = false) ∧
    (((ConcurrentArena.mk 128 4 (fun _ => Shard.mk 0 0)
        (Arena.fresh 1024 0) 0 0 0).shards
        (((ConcurrentArena.mk 128 4 (fun _ => Shard.mk 0 0)
          (Arena.fresh 1024 0) 0 0 0)).pickShard 5
          (Oracle.mk true true 0)).1).allocated_and_unused < 13) ∧
    (¬ (13 ≤ (ConcurrentArena.mk 128 4 (fun _ => Shard.mk 0 0)
        (Arena.fresh 1024 0) 0 0 0).arena_allocated_and_unused ∧
      (ConcurrentArena.mk 128 4 (fun _ => Shard.mk 0 0)
        (Arena.fresh 1024 0) 0 0 0).arena.IsInInlineBlock = true)) ∧
    ((ConcurrentArena.mk 128 4 (fun _ => Shard.mk 0 0)
        (Arena.fresh 1024 0) 0 0 0).AllocateImpl 5 13 false false
        (Oracle.mk true true 0)).rv = 115 ∧
    (((ConcurrentArena.mk 128 4 (fun _ => Shard.mk 0 0)
        (Arena.fresh 1024 0) 0 0 0).AllocateImpl 5 13 false false
        (Oracle.mk true true 0)).state.shards 1).allocated_and_unused = 115 ∧
    (((ConcurrentArena.mk 128 4 (fun _ => Shard.mk 0 0)
        (Arena.fresh 1024 0) 0 0 0).AllocateImpl 5 13 false false
        (Oracle.mk true true 0)).state.shards 1).free_begin = 0 := by
  have h := C4_refill_window
    (ConcurrentArena.mk 128 4 (fun _ => Shard.mk 0 0)
      (Arena.fresh 1024 0) 0 0 0)
    5 13 false false (Oracle.mk true true 0) (by decide) (by decide) (by decide)
  refine ⟨by decide, by decide, by decide, ?_, ?_, ?_⟩
  · exact ((h.2.2.2.2.2.2.2.2.2.2 (by decide)).1).trans (by decide)
  · exact (h.2.2.2.2.2.2.2.2.1).trans (by decide)
  · exact ((h.2.2.2.2.2.2.2.2.2.2 (by decide)).2).trans (by decide)

/-! ## C9: query operations -/

/-- A `Fixup` establishes cache coherence. -/
theorem cacheOK_fixup (st : ConcurrentArena) :
    CacheOK (ConcurrentArena.Fixup st) := ⟨rfl, rfl, rfl⟩

/-- Every `AllocateImpl` call preserves cache coherence: whenever the arena
is mutated the call ends with a `Fixup` under the same lock. -/
theorem cacheOK_step (st : ConcurrentArena) (tls bytes : Nat)
    (force aligned : Bool) (o : Oracle) (h : CacheOK st) :
    CacheOK (st.AllocateImpl tls bytes force aligned o).state := by
  simp only [ConcurrentArena.AllocateImpl]
  split
  · exact cacheOK_fixup _
  · split
    · split
      · exact cacheOK_fixup _
      · simp only [ConcurrentArena.finishBump]
        split
        · exact ⟨rfl, rfl, rfl⟩
        · exact ⟨rfl, rfl, rfl⟩
    · simp only [ConcurrentArena.finishBump]
      split
      · exact h
      · exact h

/-- Cache coherence is preserved along any run. -/
theorem cacheOK_run (st : ConcurrentArena) (steps : List Step)
    (h : CacheOK st) : CacheOK (st.run steps).1 := by
  induction steps generalizing st with
  | nil => exact h
  | cons s rest ih =>
    exact ih _ (cacheOK_step _ _ _ _ _ _ h)

/-- C9: the query operations are pure state readers — in this embedding
they are `Nat`-valued functions of the state, so they allocate nothing and
mutate neither the arena, nor the shards, nor the cached counters.
`ApproximateMemoryUsage` returns the arena's approximate usage minus the
sum of all shards' remaining capacities, and the other four return the
cached counters / the arena's block size; moreover the cached counters a
query reads always agree with the arena's current values along any run
from a fresh instance (the source's own
`assert(exact == arena_.AllocatedAndUnused())`). -/
theorem C9_queries_read_only :
    (∀ st : ConcurrentArena,
      st.ApproximateMemoryUsage =
        st.arena.ApproximateMemoryUsage - st.ShardAllocatedAndUnused ∧
      st.MemoryAllocatedBytes = st.memory_allocated_bytes ∧
      st.AllocatedAndUnused =
        st.arena_allocated_and_unused + st.ShardAllocatedAndUnused ∧
      st.IrregularBlockNum = st.irregular_block_num ∧
      st.BlockSize = st.arena.BlockSize) ∧
    (∀ (blockSize inlineSize numShards : Nat) (steps : List Step),
      CacheOK
        ((ConcurrentArena.mkInit blockSize inlineSize numShards).run steps).1) :=
  ⟨fun _ => ⟨rfl, rfl, rfl, rfl, rfl⟩,
   fun _ _ _ steps => cacheOK_run _ steps (cacheOK_fixup _)⟩

/-! ## C5: inline-block shortcut -/

/-- The modelled arena serves a request that fits in the current block from
that block. -/
theorem arena_allocate_in_block (a : Arena) (bytes : Nat)
    (h : a.cursor + bytes ≤ a.limit) :
    a.Allocate bytes = (a.cursor, { a with cursor := a.cursor + bytes }) := by
  simp [Arena.Allocate, h]

/-- One step of the C5 run invariant: with all shards empty, the arena
still in its inline block, coherent caches and a request that fits in the
inline block, a plain `Allocate` call leaves all shards empty, stays in the
inline block, keeps caches coherent and consumes exactly `bytes` of the
block, without creating any block (irregular count unchanged). -/
theorem C5_step (st : ConcurrentArena) (tls bytes : Nat) (o : Oracle)
    (hsh : ∀ i, st.shards i = Shard.mk 0 0)
    (hin : st.arena.inInline = true)
    (hc : CacheOK st)
    (hwf : st.arena.cursor ≤ st.arena.limit)
    (hb : bytes ≤ st.arena.limit - st.arena.cursor) :
    (∀ i, (st.AllocateImpl tls bytes false false o).state.shards i =
      Shard.mk 0 0) ∧
    (st.AllocateImpl tls bytes false false o).state.arena.inInline = true ∧
    CacheOK (st.AllocateImpl tls bytes false false o).state ∧
    (st.AllocateImpl tls bytes false false o).state.arena.cursor ≤
      (st.AllocateImpl tls bytes false false o).state.arena.limit ∧
    (st.AllocateImpl tls bytes false false o).state.arena.limit -
        (st.AllocateImpl tls bytes false false o).state.arena.cursor =
      (st.arena.limit - st.arena.cursor) - bytes ∧
    (st.AllocateImpl tls bytes false false o).state.arena.irregular =
      st.arena.irregular := by
  have hfit : st.arena.cursor + bytes ≤ st.arena.limit := by omega
  have hrun : runFunc false bytes st.arena =
      (st.arena.cursor, { st.arena with cursor := st.arena.cursor + bytes }) := by
    simp only [runFunc, Bool.false_eq_true, if_false]
    exact arena_allocate_in_block _ _ hfit
  simp only [ConcurrentArena.AllocateImpl]
  split
  · rw [hrun]
    refine ⟨fun i => hsh i, hin, cacheOK_fixup _, hfit, ?_, rfl⟩
    show st.arena.limit - (st.arena.cursor + bytes) =
      st.arena.limit - st.arena.cursor - bytes
    omega
  · by_cases hpos : (st.shards (st.pickShard tls o).1).allocated_and_unused
        < bytes
    · rw [if_pos hpos]
      have hex : bytes ≤ st.arena_allocated_and_unused := by
        rw [hc.1]
        exact hb
      rw [if_pos ⟨hex, hin⟩, hrun]
      refine ⟨fun i => hsh i, hin, cacheOK_fixup _, hfit, ?_, rfl⟩
      show st.arena.limit - (st.arena.cursor + bytes) =
        st.arena.limit - st.arena.cursor - bytes
      omega
    · rw [if_neg hpos]
      have hav : (st.shards (st.pickShard tls o).1).allocated_and_unused = 0 := by
        rw [hsh]
      have hz : bytes = 0 := by omega
      subst hz
      rw [hsh (st.pickShard tls o).1]
      simp only [ConcurrentArena.finishBump]
      split
      · refine ⟨?_, hin, hc, hwf, ?_, rfl⟩
        · intro i
          by_cases hi : i = (st.pickShard tls o).1
          · simp [hi]
          · simp only [hi, if_false]
            exact hsh i
        · show st.arena.limit - st.arena.cursor =
            st.arena.limit - st.arena.cursor - 0
          omega
      · refine ⟨?_, hin, hc, hwf, ?_, rfl⟩
        · intro i
          by_cases hi : i = (st.pickShard tls o).1
          · simp [hi]
          · simp only [hi, if_false]
            exact hsh i
        · show st.arena.limit - st.arena.cursor =
            st.arena.limit - st.arena.cursor - 0
          omega

/-- The C5 run invariant, propagated along a whole run of plain `Allocate`
calls whose total size fits in the inline block. -/
theorem C5_aux (steps : List Step) : ∀ (st : ConcurrentArena),
    (∀ s ∈ steps, s.force = false ∧ s.aligned = false) →
    (∀ i, st.shards i = Shard.mk 0 0) →
    st.arena.inInline = true →
    CacheOK st →
    st.arena.cursor ≤ st.arena.limit →
    (steps.map Step.bytes).sum ≤ st.arena.limit - st.arena.cursor →
    (∀ i, (st.run steps).1.shards i = Shard.mk 0 0) ∧
    CacheOK (st.run steps).1 ∧
    (st.run steps).1.arena.irregular = st.arena.irregular := by
  induction steps with
  | nil =>
    intro st _ hsh _ hc _ _
    exact ⟨hsh, hc, rfl⟩
  | cons s rest ih =>
    intro st hfa hsh hin hc hwf hsum
    have hf := hfa s (List.mem_cons_self _ _)
    simp only [List.map_cons, List.sum_cons] at hsum
    have hbs : s.bytes ≤ st.arena.limit - st.arena.cursor := by omega
    have hstep := C5_step st s.tls s.bytes s.o hsh hin hc hwf hbs
    simp only [ConcurrentArena.run]
    rw [hf.1, hf.2]
    have hrest := ih (st.AllocateImpl s.tls s.bytes false false s.o).state
      (fun t ht => hfa t (List.mem_cons_of_mem _ ht))
      hstep.1 hstep.2.1 hstep.2.2.1 hstep.2.2.2.1
      (by
        have h5 := hstep.2.2.2.2.1
        omega)
    exact ⟨hrest.1, hrest.2.1, hrest.2.2.trans hstep.2.2.2.2.2⟩

/-- C5: during a refill, if the cached `exact` covers the request and the
arena is still inside its first (inline) block, the request is served
directly from the arena and no shard is created or modified; consequently a
fresh instance whose plain `Allocate` calls have total size within the
inline block never creates a shard window: every shard stays null with zero
capacity and the irregular-block counter stays at its initial value 0. -/
theorem C5_inline_shortcut :
    (∀ (st : ConcurrentArena) (tls bytes : Nat) (force aligned : Bool)
        (o : Oracle),
      st.directCond tls bytes force o = false →
      (st.shards (st.pickShard tls o).1).allocated_and_unused < bytes →
      bytes ≤ st.arena_allocated_and_unused →
      st.arena.IsInInlineBlock = true →
      (st.AllocateImpl tls bytes force aligned o).mode = Mode.inlineShortcut ∧
      (st.AllocateImpl tls bytes force aligned o).rv =
        (runFunc aligned bytes st.arena).1 ∧
      (st.AllocateImpl tls bytes force aligned o).state.arena =
        (runFunc aligned bytes st.arena).2 ∧
      (∀ j, (st.AllocateImpl tls bytes force aligned o).state.shards j =
        st.shards j)) ∧
    (∀ (blockSize inlineSize numShards : Nat) (steps : List Step),
      (∀ s ∈ steps, s.force = false ∧ s.aligned = false) →
      (steps.map Step.bytes).sum ≤ inlineSize →
      (∀ i, ((ConcurrentArena.mkInit blockSize inlineSize numShards).run
        steps).1.shards i = Shard.mk 0 0) ∧
      ((ConcurrentArena.mkInit blockSize inlineSize numShards).run
        steps).1.irregular_block_num = 0) := by
  constructor
  · intro st tls bytes force aligned o hd hav hex hin
    simp only [ConcurrentArena.AllocateImpl, hd, Bool.false_eq_true, if_false]
    rw [if_pos hav, if_pos ⟨hex, hin⟩]
    exact ⟨rfl, rfl, rfl, fun j => rfl⟩
  · intro bs is ns steps hfa hsum
    have h := C5_aux steps (ConcurrentArena.mkInit bs is ns) hfa
      (fun i => rfl) rfl (cacheOK_fixup _) (Nat.zero_le _)
      (by
        show (steps.map Step.bytes).sum ≤ is - 0
        omega)
    refine ⟨h.1, ?_⟩
    rw [h.2.1.2.2]
    show ((ConcurrentArena.mkInit bs is ns).run steps).1.arena.irregular = 0
    rw [h.2.2]
    rfl

/-- Witness for C5: a 13-byte request on the shard path against an empty
shard, with 256 bytes cached as unused and the arena still in its inline
block, is served by the inline shortcut. -/
theorem C5_witness :
    ((ConcurrentArena.mk 128 4 (fun _ => Shard.mk 0 0)
        (Arena.fresh 1024 256) 256 256 0).directCond 5 13 false
        (Oracle.mk true true 0) = false) ∧
    (((ConcurrentArena.mk 128 4 (fun _ => Shard.mk 0 0)
        (Arena.fresh 1024 256) 256 256 0).shards
        ((ConcurrentArena.mk 128 4 (fun _ => Shard.mk 0 0)
          (Arena.fresh 1024 256) 256 256 0).pickShard 5
          (Oracle.mk true true 0)).1).allocated_and_unused < 13) ∧
    (13 ≤ (ConcurrentArena.mk 128 4 (fun _ => Shard.mk 0 0)
        (Arena.fresh 1024 256) 256 256 0).arena_allocated_and_unused) ∧
    ((ConcurrentArena.mk 128 4 (fun _ => Shard.mk 0 0)
        (Arena.fresh 1024 256) 256 256 0).arena.IsInInlineBlock = true) ∧
    ((ConcurrentArena.mk 128 4 (fun _ => Shard.mk 0 0)
        (Arena.fresh 1024 256) 256 256 0).AllocateImpl 5 13 false false
        (Oracle.mk true true 0)).mode = Mode.inlineShortcut :=
  ⟨by decide, by decide, by decide, by decide,
   (C5_inline_shortcut.1
     (ConcurrentArena.mk 128 4 (fun _ => Shard.mk 0 0)
       (Arena.fresh 1024 256) 256 256 0) 5 13 false false
     (Oracle.mk true true 0) (by decide) (by decide) (by decide)
     (by decide)).1⟩

/-! ## C8: word-multiple requests served from a shard window are aligned -/

/-- A bump from a word-aligned window base keeps every free-pointer
word-aligned and returns an aligned pointer for word-multiple requests. -/
theorem C8_bump (st : ConcurrentArena) (idx fb avail bytes tls : Nat)
    (hfb : wordSize ∣ fb) (h : ShardsAligned st) :
    ShardsAligned (ConcurrentArena.finishBump st idx fb avail bytes tls).state ∧
    (bytes % wordSize = 0 →
      (ConcurrentArena.finishBump st idx fb avail bytes tls).rv % wordSize
        = 0) := by
  have hw : (0 : Nat) < wordSize := by decide
  simp only [ConcurrentArena.finishBump]
  split
  · rename_i hb
    constructor
    · intro i
      dsimp only
      by_cases hi : i = idx
      · simp only [hi, if_pos rfl]
        exact Nat.dvd_add hfb (Nat.dvd_of_mod_eq_zero hb)
      · simp only [hi, if_false]
        exact h i
    · intro _
      exact Nat.mod_eq_zero_of_dvd hfb
  · rename_i hb
    constructor
    · intro i
      dsimp only
      by_cases hi : i = idx
      · simp only [hi, if_pos rfl]
        exact hfb
      · simp only [hi, if_false]
        exact h i
    · intro hb2
      exact absurd hb2 hb

/-- One `AllocateImpl` call preserves word-alignment of all shard
free-pointers, and a word-multiple request served from a shard window
returns an aligned pointer. -/
theorem C8_step (st : ConcurrentArena) (tls bytes : Nat)
    (force aligned : Bool) (o : Oracle) (h : ShardsAligned st) :
    ShardsAligned (st.AllocateImpl tls bytes force aligned o).state ∧
    ((st.AllocateImpl tls bytes force aligned o).mode = Mode.shard →
      bytes % wordSize = 0 →
      (st.AllocateImpl tls bytes force aligned o).rv % wordSize = 0) := by
  simp only [ConcurrentArena.AllocateImpl]
  split
  · exact ⟨h, fun hm _ => absurd hm (by simp)⟩
  · split
    · split
      · exact ⟨h, fun hm _ => absurd hm (by simp)⟩
      · have hp := allocateAligned_fst_aligned st.arena
          (refillSize st.shard_block_size st.arena_allocated_and_unused)
        have hb := C8_bump
          (ConcurrentArena.Fixup { st with arena :=
            (st.arena.AllocateAligned
              (refillSize st.shard_block_size
                st.arena_allocated_and_unused)).2 })
          (st.pickShard tls o).1
          (st.arena.AllocateAligned
            (refillSize st.shard_block_size st.arena_allocated_and_unused)).1
          (refillSize st.shard_block_size st.arena_allocated_and_unused)
          bytes (st.pickShard tls o).2 hp h
        exact ⟨hb.1, fun _ => hb.2⟩
    · have hb := C8_bump st (st.pickShard tls o).1
        (st.shards (st.pickShard tls o).1).free_begin
        (st.shards (st.pickShard tls o).1).allocated_and_unused
        bytes (st.pickShard tls o).2 (h _) h
      exact ⟨hb.1, fun _ => hb.2⟩

/-- Alignment propagated along a whole run. -/
theorem C8_run_aux (steps : List Step) : ∀ (st : ConcurrentArena),
    ShardsAligned st →
    ShardsAligned (st.run steps).1 ∧
    (∀ e ∈ (st.run steps).2, e.mode = Mode.shard → e.bytes % wordSize = 0 →
      e.rv % wordSize = 0) := by
  induction steps with
  | nil =>
    intro st h
    exact ⟨h, fun e he => absurd he (List.not_mem_nil e)⟩
  | cons s rest ih =>
    intro st h
    have hstep := C8_step st s.tls s.bytes s.force s.aligned s.o h
    have hrest := ih (st.AllocateImpl s.tls s.bytes s.force s.aligned s.o).state
      hstep.1
    simp only [ConcurrentArena.run]
    refine ⟨hrest.1, ?_⟩
    intro e he hm hb
    rcases List.mem_cons.mp he with he1 | he2
    · subst he1
      exact hstep.2 hm hb
    · exact hrest.2 e he2 hm hb

/-- C8: in any run from a fresh instance, every request that is served from
a shard window (the shard route) with `bytes` a word multiple returns a
word-aligned pointer: shard free-pointers start word-aligned (windows are
carved via the arena's aligned allocation) and only ever advance by word
multiples, since non-word-multiple requests are served from the tail. -/
theorem C8_shard_alignment (blockSize inlineSize numShards : Nat)
    (steps : List Step) (e : Event)
    (he : e ∈ ((ConcurrentArena.mkInit blockSize inlineSize numShards).run
      steps).2)
    (hm : e.mode = Mode.shard) (hb : e.bytes % wordSize = 0) :
    e.rv % wordSize = 0 :=
  (C8_run_aux steps (ConcurrentArena.mkInit blockSize inlineSize numShards)
    (fun _ => Dvd.intro 0 rfl)).2 e he hm hb

/-- Witness for C8: an 8-byte request served from a freshly refilled shard
window returns the window base 0, a word multiple. -/
theorem C8_witness :
    Event.mk 0 8 Mode.shard ∈ ((ConcurrentArena.mkInit 256 0 4).run
      [Step.mk 0 8 false false (Oracle.mk false true 0)]).2 ∧
    (Event.mk 0 8 Mode.shard).bytes % wordSize = 0 ∧
    (Event.mk 0 8 Mode.shard).rv % wordSize = 0 :=
  ⟨by decide, by decide,
   C8_shard_alignment 256 0 4
     [Step.mk 0 8 false false (Oracle.mk false true 0)]
     (Event.mk 0 8 Mode.shard) (by decide) (by decide) (by decide)⟩

/-! ## C1: no aliasing -/

/-- Range disjointness is symmetric. -/
theorem disj_symm : Symmetric Event.disj := by
  intro e f h
  simp only [Event.disj] at *
  omega

/-- Two ranges with no common address are disjoint. -/
theorem disj_of_no_common_point (e f : Event)
    (h : ∀ x, e.covers x → ¬ f.covers x) : e.disj f := by
  simp only [Event.covers] at h
  simp only [Event.disj]
  by_contra hc
  push_neg at hc
  obtain ⟨h1, h2, h3, h4⟩ := hc
  exact h (max e.rv f.rv) ⟨by omega, by omega⟩ ⟨by omega, by omega⟩

/-- Rounding up never moves an address down. -/
theorem le_roundUp8 (n : Nat) : n ≤ roundUp8 n := by
  simp only [roundUp8, wordSize]
  omega

/-- Carving a fresh block at or beyond the frontier yields a well-formed
arena, serves previously free addresses, removes them from the free part
and only shrinks the free part. -/
theorem newBlock_spec (a : Arena) (base bytes : Nat) (_hwf : a.wf)
    (hb : a.frontier ≤ base) :
    (a.newBlock base bytes).2.wf ∧
    (∀ x, base ≤ x → x < base + bytes → a.freeAddr x) ∧
    (∀ x, base ≤ x → x < base + bytes →
      ¬ (a.newBlock base bytes).2.freeAddr x) ∧
    (∀ x, (a.newBlock base bytes).2.freeAddr x → a.freeAddr x) := by
  simp only [Arena.newBlock, Arena.wf, Arena.freeAddr] at *
  have hsz : bytes ≤ max bytes a.blockSize := le_max_left _ _
  refine ⟨by omega, ?_, ?_, ?_⟩
  · intro x h1 h2
    omega
  · intro x h1 h2
    omega
  · intro x hx
    omega

/-- `Arena::Allocate` serves previously free addresses, removes the served
range from the free part and only shrinks the free part. -/
theorem allocate_spec (a : Arena) (bytes : Nat) (hwf : a.wf) :
    (a.Allocate bytes).2.wf ∧
    (∀ x, (a.Allocate bytes).1 ≤ x → x < (a.Allocate bytes).1 + bytes →
      a.freeAddr x) ∧
    (∀ x, (a.Allocate bytes).1 ≤ x → x < (a.Allocate bytes).1 + bytes →
      ¬ (a.Allocate bytes).2.freeAddr x) ∧
    (∀ x, (a.Allocate bytes).2.freeAddr x → a.freeAddr x) := by
  simp only [Arena.Allocate]
  split
  · rename_i hfit
    simp only [Arena.wf, Arena.freeAddr] at *
    refine ⟨by omega, ?_, ?_, ?_⟩
    · intro x h1 h2
      omega
    · intro x h1 h2
      omega
    · intro x hx
      omega
  · exact newBlock_spec a a.frontier bytes hwf (le_refl _)

/-- `Arena::AllocateAligned` serves previously free addresses, removes the
served range from the free part and only shrinks the free part. -/
theorem allocateAligned_spec (a : Arena) (bytes : Nat) (hwf : a.wf) :
    (a.AllocateAligned bytes).2.wf ∧
    (∀ x, (a.AllocateAligned bytes).1 ≤ x →
      x < (a.AllocateAligned bytes).1 + bytes → a.freeAddr x) ∧
    (∀ x, (a.AllocateAligned bytes).1 ≤ x →
      x < (a.AllocateAligned bytes).1 + bytes →
      ¬ (a.AllocateAligned bytes).2.freeAddr x) ∧
    (∀ x, (a.AllocateAligned bytes).2.freeAddr x → a.freeAddr x) := by
  simp only [Arena.AllocateAligned]
  have hcu : a.cursor ≤ roundUp8 a.cursor := le_roundUp8 _
  have hfu : a.frontier ≤ roundUp8 a.frontier := le_roundUp8 _
  split
  · rename_i hfit
    simp only [Arena.wf, Arena.freeAddr] at *
    refine ⟨by omega, ?_, ?_, ?_⟩
    · intro x h1 h2
      omega
    · intro x h1 h2
      omega
    · intro x hx
      omega
  · exact newBlock_spec a (roundUp8 a.frontier) bytes hwf hfu

/-- The specification above, for whichever arena entry point the `func`
closure uses. -/
theorem runFunc_spec (aligned : Bool) (bytes : Nat) (a : Arena)
    (hwf : a.wf) :
    (runFunc aligned bytes a).2.wf ∧
    (∀ x, (runFunc aligned bytes a).1 ≤ x →
      x < (runFunc aligned bytes a).1 + bytes → a.freeAddr x) ∧
    (∀ x, (runFunc aligned bytes a).1 ≤ x →
      x < (runFunc aligned bytes a).1 + bytes →
      ¬ (runFunc aligned bytes a).2.freeAddr x) ∧
    (∀ x, (runFunc aligned bytes a).2.freeAddr x → a.freeAddr x) := by
  simp only [runFunc]
  split
  · exact allocateAligned_spec a bytes hwf
  · exact allocate_spec a bytes hwf

/-- Destructuring helper for `ConcurrentArena.freeAddr`. -/
theorem freeAddr_cases {st : ConcurrentArena} {x : Nat}
    (h : st.freeAddr x) :
    st.arena.freeAddr x ∨ ∃ i, (st.shards i).win x := h

/-- Replacing shard `idx` with a sub-window of an isolated region
`[fb, fb+avail)` (free for the arena, outside every other shard's window,
untouched by completed allocations) and recording an allocation served from
that region preserves the aliasing invariant, provided the recorded range
and the new window are disjoint parts of the region. -/
theorem update_inv (st1 : ConcurrentArena) (evs : List Event)
    (idx : Nat) (s' : Shard) (rv n fb avail : Nat)
    (hInv : AliasInv st1 evs)
    (hsubw : ∀ x, s'.win x → fb ≤ x ∧ x < fb + avail)
    (hsubr : ∀ x, rv ≤ x → x < rv + n → fb ≤ x ∧ x < fb + avail)
    (hdisj : ∀ x, rv ≤ x → x < rv + n → ¬ s'.win x)
    (hWfree : ∀ x, fb ≤ x → x < fb + avail → ¬ st1.arena.freeAddr x)
    (hWshard : ∀ j, j ≠ idx → ∀ x, fb ≤ x → x < fb + avail →
      ¬ (st1.shards j).win x)
    (hWev : ∀ e ∈ evs, ∀ x, fb ≤ x → x < fb + avail → ¬ e.covers x) :
    AliasInv
      { st1 with shards := (fun j => if j = idx then s' else st1.shards j) }
      (Event.mk rv n Mode.shard :: evs) := by
  obtain ⟨hwf, hwfree, hwpair, hev, hpair⟩ := hInv
  refine ⟨hwf, ?_, ?_, ?_, ?_⟩
  · intro i x hwin
    dsimp only at hwin
    by_cases hi : i = idx
    · rw [if_pos hi] at hwin
      have hx := hsubw x hwin
      exact hWfree x hx.1 hx.2
    · rw [if_neg hi] at hwin
      exact hwfree i x hwin
  · intro i j x hij hwi
    dsimp only at hwi ⊢
    by_cases hi : i = idx <;> by_cases hj : j = idx
    · exact absurd (hi.trans hj.symm) hij
    · rw [if_pos hi] at hwi
      rw [if_neg hj]
      have hx := hsubw x hwi
      exact hWshard j hj x hx.1 hx.2
    · rw [if_neg hi] at hwi
      rw [if_pos hj]
      intro hsw
      have hx := hsubw x hsw
      exact hWshard i hi x hx.1 hx.2 hwi
    · rw [if_neg hi] at hwi
      rw [if_neg hj]
      exact hwpair i j x hij hwi
  · intro e he x hcov hfree
    rcases freeAddr_cases hfree with hfa | ⟨i, hwi⟩
    · rcases List.mem_cons.mp he with he1 | he2
      · subst he1
        have hx := hsubr x hcov.1 hcov.2
        exact hWfree x hx.1 hx.2 hfa
      · exact hev e he2 x hcov (Or.inl hfa)
    · dsimp only at hwi
      by_cases hi : i = idx
      · rw [if_pos hi] at hwi
        have hx := hsubw x hwi
        rcases List.mem_cons.mp he with he1 | he2
        · subst he1
          exact hdisj x hcov.1 hcov.2 hwi
        · exact hWev e he2 x hx.1 hx.2 hcov
      · rw [if_neg hi] at hwi
        rcases List.mem_cons.mp he with he1 | he2
        · subst he1
          have hx := hsubr x hcov.1 hcov.2
          exact hWshard i hi x hx.1 hx.2 hwi
        · exact hev e he2 x hcov (Or.inr ⟨i, hwi⟩)
  · refine List.pairwise_cons.mpr ⟨?_, hpair⟩
    intro e he
    refine disj_of_no_common_point _ _ ?_
    intro x hx
    have hx2 := hsubr x hx.1 hx.2
    exact hWev e he x hx2.1 hx2.2
/-- A bump allocation (`finishBump`) from an isolated region preserves the
aliasing invariant and records a range inside the region, disjoint from the
shard's residual window. -/
theorem finishBump_inv (st1 : ConcurrentArena) (evs : List Event)
    (idx fb avail bytes tls : Nat)
    (hInv : AliasInv st1 evs) (hbytes : bytes ≤ avail)
    (hWfree : ∀ x, fb ≤ x → x < fb + avail → ¬ st1.arena.freeAddr x)
    (hWshard : ∀ j, j ≠ idx → ∀ x, fb ≤ x → x < fb + avail →
      ¬ (st1.shards j).win x)
    (hWev : ∀ e ∈ evs, ∀ x, fb ≤ x → x < fb + avail → ¬ e.covers x) :
    AliasInv (ConcurrentArena.finishBump st1 idx fb avail bytes tls).state
      (Event.mk (ConcurrentArena.finishBump st1 idx fb avail bytes tls).rv
        bytes
        (ConcurrentArena.finishBump st1 idx fb avail bytes tls).mode :: evs) := by
  simp only [ConcurrentArena.finishBump]
  split
  · exact update_inv st1 evs idx (Shard.mk (fb + bytes) (avail - bytes))
      fb bytes fb avail hInv
      (by
        intro x hx
        simp only [Shard.win] at hx
        omega)
      (fun x h1 h2 => ⟨h1, by omega⟩)
      (by
        intro x h1 h2 hx
        simp only [Shard.win] at hx
        omega)
      hWfree hWshard hWev
  · exact update_inv st1 evs idx (Shard.mk fb (avail - bytes))
      (fb + avail - bytes) bytes fb avail hInv
      (by
        intro x hx
        simp only [Shard.win] at hx
        omega)
      (by
        intro x h1 h2
        omega)
      (by
        intro x h1 h2 hx
        simp only [Shard.win] at hx
        omega)
      hWfree hWshard hWev

/-- A direct arena allocation (direct path or inline shortcut) followed by
`Fixup` preserves the aliasing invariant and records a fresh range. -/
theorem arenaAlloc_inv (st : ConcurrentArena) (evs : List Event)
    (aligned : Bool) (bytes : Nat) (m : Mode) (hInv : AliasInv st evs) :
    AliasInv
      (ConcurrentArena.Fixup
        { st with arena := (runFunc aligned bytes st.arena).2 })
      (Event.mk (runFunc aligned bytes st.arena).1 bytes m :: evs) := by
  obtain ⟨hwf, hwfree, hwpair, hev, hpair⟩ := hInv
  obtain ⟨hwf2, hserve, hgone, hshrink⟩ := runFunc_spec aligned bytes st.arena hwf
  refine ⟨hwf2, ?_, hwpair, ?_, ?_⟩
  · intro i x hwin hfa
    exact hwfree i x hwin (hshrink x hfa)
  · intro e he x hcov hfree
    rcases freeAddr_cases hfree with hfa | ⟨i, hwi⟩
    · rcases List.mem_cons.mp he with he1 | he2
      · subst he1
        exact hgone x hcov.1 hcov.2 hfa
      · exact hev e he2 x hcov (Or.inl (hshrink x hfa))
    · rcases List.mem_cons.mp he with he1 | he2
      · subst he1
        exact hwfree i x hwi (hserve x hcov.1 hcov.2)
      · exact hev e he2 x hcov (Or.inr ⟨i, hwi⟩)
  · refine List.pairwise_cons.mpr ⟨?_, hpair⟩
    intro e he
    refine disj_of_no_common_point _ _ ?_
    intro x hx hex
    exact hev e he x hex (Or.inl (hserve x hx.1 hx.2))

/-- A request's size is bounded by the refill window size on the shard path
(`bytes <= shard_block_size/4 <= refillSize`). -/
theorem bytes_le_refillSize {sbs exact bytes : Nat} (h : bytes ≤ sbs / 4) :
    bytes ≤ refillSize sbs exact := by
  simp only [refillSize]
  split <;> omega

/-- One complete `AllocateImpl` call preserves the aliasing invariant,
recording the returned range. -/
theorem C1_step (st : ConcurrentArena) (evs : List Event)
    (tls bytes : Nat) (force aligned : Bool) (o : Oracle)
    (hInv : AliasInv st evs) :
    AliasInv (st.AllocateImpl tls bytes force aligned o).state
      (Event.mk (st.AllocateImpl tls bytes force aligned o).rv bytes
        (st.AllocateImpl tls bytes force aligned o).mode :: evs) := by
  by_cases hd : st.directCond tls bytes force o = true
  · simp only [ConcurrentArena.AllocateImpl, hd, if_true]
    exact arenaAlloc_inv st evs aligned bytes Mode.direct hInv
  · have hd' : st.directCond tls bytes force o = false :=
      Bool.not_eq_true _ ▸ eq_false_of_ne_true hd
    simp only [ConcurrentArena.AllocateImpl, hd', Bool.false_eq_true, if_false]
    by_cases hav : (st.shards (st.pickShard tls o).1).allocated_and_unused
        < bytes
    · rw [if_pos hav]
      by_cases hsc : bytes ≤ st.arena_allocated_and_unused ∧
          st.arena.IsInInlineBlock = true
      · rw [if_pos hsc]
        exact arenaAlloc_inv st evs aligned bytes Mode.inlineShortcut hInv
      · rw [if_neg hsc]
        have h4 : bytes ≤ st.shard_block_size / 4 := by
          by_contra h4n
          have : st.directCond tls bytes force o = true := by
            simp only [ConcurrentArena.directCond, Bool.or_eq_true,
              decide_eq_true_eq]
            left
            left
            omega
          rw [hd'] at this
          exact absurd this (by simp)
        have hble := @bytes_le_refillSize st.shard_block_size
          st.arena_allocated_and_unused bytes h4
        obtain ⟨hwf, hwfree, hwpair, hev, hpair⟩ := hInv
        obtain ⟨hwf2, hserve, hgone, hshrink⟩ := allocateAligned_spec st.arena
          (refillSize st.shard_block_size st.arena_allocated_and_unused) hwf
        refine finishBump_inv
          (ConcurrentArena.Fixup { st with arena :=
            (st.arena.AllocateAligned
              (refillSize st.shard_block_size
                st.arena_allocated_and_unused)).2 })
          evs (st.pickShard tls o).1
          (st.arena.AllocateAligned
            (refillSize st.shard_block_size st.arena_allocated_and_unused)).1
          (refillSize st.shard_block_size st.arena_allocated_and_unused)
          bytes (st.pickShard tls o).2
          ⟨hwf2, ?_, hwpair, ?_, hpair⟩ hble hgone ?_ ?_
        · intro i x hwin hfa
          exact hwfree i x hwin (hshrink x hfa)
        · intro e he x hcov hfree
          rcases freeAddr_cases hfree with hfa | ⟨i, hwi⟩
          · exact hev e he x hcov (Or.inl (hshrink x hfa))
          · exact hev e he x hcov (Or.inr ⟨i, hwi⟩)
        · intro j hj x h1 h2 hw
          exact hwfree j x hw (hserve x h1 h2)
        · intro e he x h1 h2 hcov
          exact hev e he x hcov (Or.inl (hserve x h1 h2))
    · rw [if_neg hav]
      obtain ⟨hwf, hwfree, hwpair, hev, hpair⟩ := hInv
      refine finishBump_inv st evs (st.pickShard tls o).1
        (st.shards (st.pickShard tls o).1).free_begin
        (st.shards (st.pickShard tls o).1).allocated_and_unused bytes
        (st.pickShard tls o).2 ⟨hwf, hwfree, hwpair, hev, hpair⟩
        (by omega) ?_ ?_ ?_
      · intro x h1 h2
        exact hwfree (st.pickShard tls o).1 x ⟨h1, h2⟩
      · intro j hj x h1 h2
        exact hwpair (st.pickShard tls o).1 j x (Ne.symm hj) ⟨h1, h2⟩
      · intro e he x h1 h2 hcov
        exact hev e he x hcov (Or.inr ⟨(st.pickShard tls o).1, ⟨h1, h2⟩⟩)

/-- The aliasing invariant only depends on the set of recorded events. -/
theorem aliasInv_perm (st : ConcurrentArena) {evs evs' : List Event}
    (h : AliasInv st evs) (hp : evs.Perm evs') : AliasInv st evs' :=
  ⟨h.1, h.2.1, h.2.2.1,
   fun e he => h.2.2.2.1 e (hp.mem_iff.mpr he),
   (hp.pairwise_iff (fun hab => disj_symm hab)).mp h.2.2.2.2⟩

/-- The aliasing invariant is preserved along any run, collecting all
returned ranges. -/
theorem C1_run (steps : List Step) : ∀ (st : ConcurrentArena)
    (evs : List Event), AliasInv st evs →
    AliasInv (st.run steps).1 ((st.run steps).2 ++ evs) := by
  induction steps with
  | nil =>
    intro st evs h
    exact h
  | cons s rest ih =>
    intro st evs h
    have hstep := C1_step st evs s.tls s.bytes s.force s.aligned s.o h
    have hrest := ih (st.AllocateImpl s.tls s.bytes s.force s.aligned s.o).state
      (Event.mk (st.AllocateImpl s.tls s.bytes s.force s.aligned s.o).rv
        s.bytes
        (st.AllocateImpl s.tls s.bytes s.force s.aligned s.o).mode :: evs)
      hstep
    simp only [ConcurrentArena.run]
    exact aliasInv_perm _ hrest List.perm_middle

/-- C1: along every run of completed `Allocate`/`AllocateAligned` calls
from a fresh instance — under any interleaving, thread-local ids and lock
outcomes — the returned byte ranges `[pointer, pointer+bytes)` are pairwise
disjoint; in particular front-growing (word-multiple) and tail-growing
requests served from the same shard window never overlap, because the
window's capacity is decremented by `bytes` on every request regardless of
which end served it. -/
theorem C1_no_aliasing (blockSize inlineSize numShards : Nat)
    (steps : List Step) :
    List.Pairwise Event.disj
      ((ConcurrentArena.mkInit blockSize inlineSize numShards).run steps).2 := by
  have hInv0 : AliasInv (ConcurrentArena.mkInit blockSize inlineSize numShards)
      ([] : List Event) := by
    have h0 : ∀ i, (ConcurrentArena.mkInit blockSize inlineSize
        numShards).shards i = Shard.mk 0 0 := fun _ => rfl
    refine ⟨⟨Nat.zero_le _, le_refl _⟩, ?_, ?_, ?_, List.Pairwise.nil⟩
    · intro i x hwin
      rw [h0 i] at hwin
      simp only [Shard.win] at hwin
      omega
    · intro i j x hij hwi
      rw [h0 i] at hwi
      simp only [Shard.win] at hwi
      omega
    · intro e he
      exact absurd he (List.not_mem_nil e)
  have h := C1_run steps (ConcurrentArena.mkInit blockSize inlineSize numShards)
    [] hInv0
  have h2 := h.2.2.2.2
  rwa [List.append_nil] at h2
